import Mathlib

/-!
Verification development for the polling engine of the reel-tracker service
(`app/main.py`). Python values and CPython arithmetic (including IEEE-754
double rounding, which `coerce_int` relies on through `float(...)` and
`int(float * mult)`) are embedded with executable natural-number arithmetic;
database state is embedded as explicit record lists; network calls are
abstracted as function parameters.
-/

set_option maxRecDepth 100000

/-- Fuel-driven binary logarithm: `nlog2 fuel n = ⌊log₂ n⌋` whenever
`0 < n < 2 ^ (fuel + 1)`. Structural recursion so that it evaluates
inside `decide`. -/
def nlog2 : ℕ → ℕ → ℕ
  | 0, _ => 0
  | fuel + 1, n => if n ≤ 1 then 0 else nlog2 fuel (n / 2) + 1

/-- `⌊log₂ n⌋` for positive `n` (0 at 0). -/
def natLog2 (n : ℕ) : ℕ := nlog2 n n

theorem nlog2_spec : ∀ (fuel n : ℕ), 0 < n → n < 2 ^ (fuel + 1) →
    2 ^ nlog2 fuel n ≤ n ∧ n < 2 ^ (nlog2 fuel n + 1) := by
  intro fuel
  induction fuel with
  | zero =>
    intro n hn hlt
    simp only [nlog2]
    omega
  | succ f ih =>
    intro n hn hlt
    by_cases h1 : n ≤ 1
    · simp only [nlog2, if_pos h1]
      omega
    · simp only [nlog2, if_neg h1]
      have hpos : 0 < n / 2 := Nat.div_pos (by omega) (by omega)
      have hfl : n / 2 < 2 ^ (f + 1) := by
        have : n < 2 ^ (f + 1) * 2 := by
          rw [← pow_succ]
          exact hlt
        omega
      obtain ⟨hlo, hhi⟩ := ih (n / 2) hpos hfl
      have e1 : 2 ^ (nlog2 f (n / 2) + 1) = 2 ^ nlog2 f (n / 2) * 2 := pow_succ 2 _
      have e2 : 2 ^ (nlog2 f (n / 2) + 1 + 1) = 2 ^ (nlog2 f (n / 2) + 1) * 2 := pow_succ 2 _
      omega

theorem natLog2_spec (n : ℕ) (hn : 0 < n) :
    2 ^ natLog2 n ≤ n ∧ n < 2 ^ (natLog2 n + 1) :=
  nlog2_spec n n hn (lt_of_lt_of_le (Nat.lt_two_pow n) (Nat.pow_le_pow_right (by omega) (by omega)))

/-- Exponent of `N / D`: the unique `e` with `2 ^ e ≤ N / D < 2 ^ (e + 1)`,
computed with natural-number comparisons only. -/
def exp2 (N D : ℕ) : ℤ :=
  let e0 : ℤ := (natLog2 N : ℤ) - (natLog2 D : ℤ)
  let ok : Bool := if 0 ≤ e0 then D * 2 ^ e0.toNat ≤ N else D ≤ N * 2 ^ (-e0).toNat
  if ok then e0 else e0 - 1

/-- Round-half-to-even of the nonnegative fraction `u / v` to an integer,
as IEEE-754 rounding does at the mantissa level. -/
def rhe (u v : ℕ) : ℕ :=
  if 2 * (u % v) < v then u / v
  else if v < 2 * (u % v) then u / v + 1
  else if (u / v) % 2 = 0 then u / v else u / v + 1

theorem rhe_le (u v : ℕ) : rhe u v ≤ u / v + 1 := by
  unfold rhe
  split
  · omega
  · split
    · omega
    · split <;> omega

/-- CPython `float` value: sign (`true` = nonnegative), mantissa `n` and
exponent `e`, denoting `± n * 2 ^ (e - 52)`; or one of the special values. -/
inductive PyFloat where
  | finite (sign : Bool) (n : ℕ) (e : ℤ)
  | inf
  | neginf
  | nan
deriving DecidableEq

/-- Rational value of a finite float (0 for the special values); used only in
specifications and proofs, never in computations. -/
def PyFloat.val : PyFloat → ℚ
  | .finite s n e => (if s then 1 else -1) * (n : ℚ) * (2 : ℚ) ^ (e - 52)
  | _ => 0

/-- Truncation toward zero of a rational: the mathematical meaning of
CPython `int(f)` on a finite float `f`. -/
def truncRat (q : ℚ) : ℤ := if 0 ≤ q then ⌊q⌋ else -⌊-q⌋

/-- Round the nonnegative rational `N / D` to the nearest IEEE-754 double
(round half to even, overflow to `inf`), exactly as CPython's `float`
arithmetic produces it. Validated against CPython on the full pipeline. -/
def roundPair (N D : ℕ) : PyFloat :=
  if N = 0 then .finite true 0 0
  else
    let e := exp2 N D
    let ep := max e (-1022)
    let k := 52 - ep
    let u := if 0 ≤ k then N * 2 ^ k.toNat else N
    let v := if 0 ≤ k then D else D * 2 ^ (-k).toNat
    let n := rhe u v
    if 2 ^ (1076 - ep).toNat ≤ n then .inf else .finite true n ep

/-- Apply a sign to the result of `roundPair` (used for products of a signed
float with a positive integer). -/
def roundPairS (s : Bool) (N D : ℕ) : PyFloat :=
  match roundPair N D with
  | .finite _ n e => .finite s n e
  | .inf => if s then .inf else .neginf
  | other => other

/-- CPython `int(f)` for a float `f`: truncation toward zero; raises
`ValueError` on NaN and `OverflowError` on infinities. -/
def pyTrunc : PyFloat → Except String ℤ
  | .finite s n e =>
      let m : ℕ := if 52 ≤ e then n * 2 ^ (e - 52).toNat else n / 2 ^ (52 - e).toNat
      .ok (if s then (m : ℤ) else -(m : ℤ))
  | .nan => .error "cannot convert float NaN to integer"
  | _ => .error "cannot convert float infinity to integer"

/-- CPython float-times-positive-int (`base * mult` in `coerce_int`): exact
product re-rounded to double precision. -/
def pyMulPos (f : PyFloat) (m : ℕ) : PyFloat :=
  match f with
  | .finite s n e =>
      if 52 ≤ e then roundPairS s (n * m * 2 ^ (e - 52).toNat) 1
      else roundPairS s (n * m) (2 ^ (52 - e).toNat)
  | other => other

/-- ASCII decimal digit test (models `\d` / `str.isdigit` on ASCII text). -/
def isAsciiDigit (c : Char) : Bool := '0' ≤ c && c ≤ '9'

/-- Value of a list of ASCII decimal digits. -/
def digitsToNat (cs : List Char) : ℕ :=
  cs.foldl (fun a c => a * 10 + (c.toNat - '0'.toNat)) 0

/-- CPython `float("<digits>.<digits>")`: the exact decimal value rounded to
double precision. -/
def pyFloatOfDigits (ip fp : List Char) : PyFloat :=
  roundPair (digitsToNat (ip ++ fp)) (10 ^ fp.length)

/-- Whitespace characters removed by `str.strip()`: the full ASCII range of
CPython `str.isspace()`, by codepoint — space, tab, newline, carriage
return, vertical tab, form feed, and the information-separator controls
0x1c through 0x1f. -/
def isPySpace (c : Char) : Bool :=
  c.toNat == 32 || c.toNat == 9 || c.toNat == 10 || c.toNat == 13 ||
    c.toNat == 11 || c.toNat == 12 || c.toNat == 28 || c.toNat == 29 ||
    c.toNat == 30 || c.toNat == 31

/-- `value.strip()` of `coerce_int`, modelled for ASCII text. -/
def pyStrip (cs : List Char) : List Char :=
  ((cs.dropWhile isPySpace).reverse.dropWhile isPySpace).reverse

/-- `value.strip().replace(",", "").lower()` from `coerce_int`, modelled for
ASCII text. -/
def pyClean (s : String) : List Char :=
  ((pyStrip s.data).filter (fun c => c ≠ ',')).map Char.toLower

/-- `re.fullmatch(r"(\d+(?:\.\d+)?)([kmb])", cleaned)` from `coerce_int`:
integer digits, optional fractional digits, and the unit suffix. Greedy
digit-scanning coincides with the regex since no digit can match `[kmb]`
or `.`. -/
def splitCompact (cs : List Char) : Option (List Char × List Char × Char) :=
  let ds := cs.takeWhile isAsciiDigit
  let rest := cs.dropWhile isAsciiDigit
  if ds.isEmpty then none
  else
    match rest with
    | [u] => if u == 'k' || u == 'm' || u == 'b' then some (ds, [], u) else none
    | '.' :: rest2 =>
        let fs := rest2.takeWhile isAsciiDigit
        let rest3 := rest2.dropWhile isAsciiDigit
        if fs.isEmpty then none
        else
          match rest3 with
          | [u] => if u == 'k' || u == 'm' || u == 'b' then some (ds, fs, u) else none
          | _ => none
    | _ => none

/-- The multiplier table `{"k": 1_000, "m": 1_000_000, "b": 1_000_000_000}`. -/
def multOf (u : Char) : ℕ :=
  if u == 'k' then 1000 else if u == 'm' then 1000000 else 1000000000

/-- `cleaned.isdigit()` modelled for ASCII text: nonempty and all digits. -/
def pyIsDigitStr (cs : List Char) : Bool := !cs.isEmpty && cs.all isAsciiDigit

/-- ASCII scope of the string model. `pyStrip`, `pyClean` and `pyIsDigitStr`
mirror CPython exactly on ASCII text; non-ASCII digit-property characters
(such as U+00B2, superscript two) make `str.isdigit()` true while `int()`
still raises `ValueError`, so string-totality statements are restricted to
ASCII input. -/
def allAscii (s : String) : Bool := s.data.all (fun c => c.toNat ≤ 127)

/-- CPython `int(cleaned)` on a digit string, including the CPython
integer-string-conversion length limit (default 4300 digits, `ValueError`
beyond it). -/
def pyIntOfDigits (cs : List Char) : Except String ℤ :=
  if cs.length > 4300 then
    .error "Exceeds the limit (4300 digits) for integer string conversion"
  else .ok (digitsToNat cs)

/-- Python values that can reach `coerce_int` (`Any` in the source). -/
inductive PyVal where
  | none
  | bool (b : Bool)
  | int (z : ℤ)
  | float (f : PyFloat)
  | str (s : String)
  | list (xs : List PyVal)
  | dict (kvs : List (String × PyVal))

/-- `coerce_int` from `app/main.py`: the Numeric Normalizer. Returns
`Except` to record the exceptions CPython's `int(...)` can raise. -/
def coerce_int : PyVal → Except String (Option ℤ)
  | .none => .ok Option.none
  | .bool _ => .ok Option.none
  | .int z => .ok (some z)
  | .float f => do
      let t ← pyTrunc f
      return some t
  | .str s =>
      let cleaned := pyClean s
      match splitCompact cleaned with
      | some (ds, fs, u) => do
          let t ← pyTrunc (pyMulPos (pyFloatOfDigits ds fs) (multOf u))
          return some t
      | Option.none =>
          if pyIsDigitStr cleaned then do
            let t ← pyIntOfDigits cleaned
            return some t
          else .ok Option.none
  | .list _ => .ok Option.none
  | .dict _ => .ok Option.none

instance {ε α : Type} [DecidableEq ε] [DecidableEq α] : DecidableEq (Except ε α) := fun a b =>
  match a, b with
  | .error x, .error y =>
      if h : x = y then .isTrue (h ▸ rfl) else .isFalse (fun hh => h (Except.error.inj hh))
  | .ok x, .ok y =>
      if h : x = y then .isTrue (h ▸ rfl) else .isFalse (fun hh => h (Except.ok.inj hh))
  | .error _, .ok _ => .isFalse (fun hh => Except.noConfusion hh)
  | .ok _, .error _ => .isFalse (fun hh => Except.noConfusion hh)

/-- Python `item.get(key)`: value at the key, `None` when absent. -/
def dictGet (kvs : List (String × PyVal)) (k : String) : PyVal :=
  match kvs.find? (fun kv => kv.1 == k) with
  | some kv => kv.2
  | Option.none => .none

/-- Python `item.get(key, default)`. -/
def dictGetD (kvs : List (String × PyVal)) (k : String) (d : PyVal) : PyVal :=
  match kvs.find? (fun kv => kv.1 == k) with
  | some kv => kv.2
  | Option.none => d

/-- `resolve_comments` from `app/main.py`: a count field wins; otherwise a
list value's length; otherwise coerce whatever is there. -/
def resolve_comments (item : List (String × PyVal)) : Except String (Option ℤ) := do
  let comments_count ← coerce_int (dictGet item "commentsCount")
  match comments_count with
  | some v => return some v
  | Option.none =>
      match dictGet item "comments" with
      | .list xs => return some (xs.length : ℤ)
      | raw => coerce_int raw

/-- Python `a or <rest>` over optional ints as it appears in
`fetch_metrics_from_apify`: `None` and `0` are falsy, so the right operand is
evaluated (and may raise) exactly in those cases. -/
def pyOrE (a : Option ℤ) (rest : Except String (Option ℤ)) : Except String (Option ℤ) :=
  match a with
  | some v => if v = 0 then rest else .ok (some v)
  | Option.none => rest

/-- Engagement metrics triple. -/
structure Metrics where
  likes : Option ℤ
  comments : Option ℤ
  views : Option ℤ
deriving DecidableEq

/-- `fetch_metrics_from_apify` from `app/main.py`, embedded from the point
where the actor response body has been parsed (`items = response.json()`
onward); HTTP transport and token configuration are outside this model. -/
def fetch_metrics_from_apify (items : PyVal) : Except String Metrics :=
  match items with
  | .list xs =>
      if xs.isEmpty then .error "Apify actor returned no items"
      else
        let item : List (String × PyVal) :=
          match xs.head? with
          | some (.dict kvs) => kvs
          | _ => []
        (do
          let views ← (do
            let a ← coerce_int (dictGet item "videoPlayCount")
            pyOrE a (do
              let b ← coerce_int (dictGet item "videoViewCount")
              pyOrE b (coerce_int (dictGet item "playCount"))))
          let likes ← (do
            let a ← coerce_int (dictGet item "likesCount")
            pyOrE a (coerce_int (dictGet item "likes")))
          let comments ← resolve_comments item
          if likes = Option.none ∧ comments = Option.none ∧ views = Option.none then
            Except.error "Apify response missing views/likes/comments fields"
          else
            return { likes := likes, comments := comments, views := views })
  | _ => .error "Apify actor returned no items"

/-- `extract_first_int` from `app/main.py`, with the regex engine abstracted
as `search pattern html = group 1 of the first match` (`none` = no match). -/
def extract_first_int (search : String → String → Option String) (patterns : List String)
    (html : String) : Except String (Option ℤ) :=
  match patterns with
  | [] => .ok Option.none
  | p :: rest =>
      match search p html with
      | some g => do
          let c ← coerce_int (.str g)
          match c with
          | some v => return some v
          | Option.none => extract_first_int search rest html
      | Option.none => extract_first_int search rest html

/-- `extract_first_compact_number` from `app/main.py`. -/
def extract_first_compact_number (search : String → String → Option String) (pattern : String)
    (html : String) : Except String (Option ℤ) :=
  match search pattern html with
  | Option.none => .ok Option.none
  | some g => coerce_int (.str g)

/-- Python `str(...)` restricted to the values this model needs at
`interactionType["@type"]`; the float/list/dict renderings are stand-ins
(no claim below evaluates them). -/
def pyValStr : PyVal → String
  | .str s => s
  | .int z => toString z
  | .bool b => if b then "True" else "False"
  | .none => "None"
  | .float _ => "<float>"
  | .list _ => "<list>"
  | .dict _ => "<dict>"

/-- Python `needle in hay` on strings, over character lists. -/
def listContains (hay needle : List Char) : Bool :=
  match hay with
  | [] => needle.isEmpty
  | _ :: t => needle.isPrefixOf hay || listContains t needle

/-- Inner loop of `extract_json_ld_metrics`: fold one `interactionStatistic`
list into the accumulated likes/comments/views, with the source's
`if/elif` chain and first-match-wins updates. -/
def jsonLdStats (stats : List PyVal) (likes comments views : Option ℤ) :
    Except String (Option ℤ × Option ℤ × Option ℤ) :=
  match stats with
  | [] => .ok (likes, comments, views)
  | stat :: rest =>
      match stat with
      | .dict kvs => do
          let value ← coerce_int (dictGet kvs "userInteractionCount")
          let iname : List Char :=
            match dictGet kvs "interactionType" with
            | .dict ikvs => (pyValStr (dictGetD ikvs "@type" (.str ""))).data.map Char.toLower
            | .str s => s.data.map Char.toLower
            | _ => []
          match value with
          | Option.none => jsonLdStats rest likes comments views
          | some v =>
              if listContains iname "like".data && likes.isNone then
                jsonLdStats rest (some v) comments views
              else if listContains iname "comment".data && comments.isNone then
                jsonLdStats rest likes (some v) views
              else if (listContains iname "watch".data || listContains iname "view".data ||
                  listContains iname "play".data) && views.isNone then
                jsonLdStats rest likes comments (some v)
              else jsonLdStats rest likes comments views
      | _ => jsonLdStats rest likes comments views

/-- Outer loop of `extract_json_ld_metrics`: scan `application/ld+json`
blocks in document order; `parseJson` abstracts `json.loads` (`none` =
parse error, which the source swallows and skips). -/
def jsonLdBlocks (parseJson : String → Option PyVal) (bs : List String)
    (likes comments views : Option ℤ) : Except String (Option ℤ × Option ℤ × Option ℤ) :=
  match bs with
  | [] => .ok (likes, comments, views)
  | b :: rest =>
      let raw := pyStrip b.data
      if raw.isEmpty then jsonLdBlocks parseJson rest likes comments views
      else
        match parseJson (String.mk raw) with
        | Option.none => jsonLdBlocks parseJson rest likes comments views
        | some data =>
            match data with
            | .dict kvs =>
                match dictGet kvs "interactionStatistic" with
                | .list stats => do
                    let (l2, c2, v2) ← jsonLdStats stats likes comments views
                    jsonLdBlocks parseJson rest l2 c2 v2
                | _ => jsonLdBlocks parseJson rest likes comments views
            | _ => jsonLdBlocks parseJson rest likes comments views

/-- `extract_json_ld_metrics` from `app/main.py`; `blocks` abstracts the
`<script type="application/ld+json">` regex `findall`. -/
def extract_json_ld_metrics (blocks : String → List String)
    (parseJson : String → Option PyVal) (html : String) :
    Except String (Option ℤ × Option ℤ × Option ℤ) :=
  jsonLdBlocks parseJson (blocks html) Option.none Option.none Option.none

/-- The structured-data patterns for likes, verbatim from
`extract_metrics_from_html`. -/
def likesPatterns : List String :=
  ["\"edge_media_preview_like\"\\s*:\\s*\\\x7b\\s*\"count\"\\s*:\\s*(\\d+)",
   "\"like_count\"\\s*:\\s*(\\d+)",
   "\"likesCount\"\\s*:\\s*(\\d+)",
   "\"likes\"\\s*:\\s*\\\x7b\\s*\"count\"\\s*:\\s*(\\d+)",
   "content=\"([\\d,]+)\\s+likes"]

/-- The structured-data patterns for comments, verbatim from
`extract_metrics_from_html`. -/
def commentsPatterns : List String :=
  ["\"edge_media_to_comment\"\\s*:\\s*\\\x7b\\s*\"count\"\\s*:\\s*(\\d+)",
   "\"comment_count\"\\s*:\\s*(\\d+)",
   "\"commentsCount\"\\s*:\\s*(\\d+)",
   "\"comments\"\\s*:\\s*\\\x7b\\s*\"count\"\\s*:\\s*(\\d+)",
   "likes,\\s*([\\d,]+)\\s+comments",
   "([\\d,]+)\\s+comments"]

/-- The structured-data patterns for views, verbatim from
`extract_metrics_from_html`. -/
def viewsPatterns : List String :=
  ["\"video_view_count\"\\s*:\\s*(\\d+)",
   "\"video_play_count\"\\s*:\\s*(\\d+)",
   "\"videoPlayCount\"\\s*:\\s*(\\d+)",
   "\"play_count\"\\s*:\\s*(\\d+)",
   "\"videoViewCount\"\\s*:\\s*(\\d+)",
   "\"interactionStatistic\"\\s*:\\s*\\[.*?\"WatchAction\".*?\"userInteractionCount\"\\s*:\\s*(\\d+)"]

/-- The source's `if <field> is None: <field> = fallback()` step after the
structured patterns: keep a found value, otherwise run the fallback
extractor (which may raise). -/
def orElseE (x : Option ℤ) (fallback : Except String (Option ℤ)) : Except String (Option ℤ) :=
  match x with
  | some v => pure (some v)
  | Option.none => fallback

/-- The source's final `if <field> is None: <field> = json_ld[...]` fill. -/
def orOpt (a b : Option ℤ) : Option ℤ :=
  match a with
  | some v => some v
  | Option.none => b

/-- `extract_metrics_from_html` from `app/main.py`: per field, structured
patterns first, then the compact-number phrase, then the JSON-LD result. -/
def extract_metrics_from_html (search : String → String → Option String)
    (blocks : String → List String) (parseJson : String → Option PyVal)
    (html : String) : Except String Metrics := do
  let likes0 ← extract_first_int search likesPatterns html
  let comments0 ← extract_first_int search commentsPatterns html
  let views0 ← extract_first_int search viewsPatterns html
  let likes1 ← orElseE likes0
    (extract_first_compact_number search "([0-9][0-9,\\.]*\\s*[kmb]?)\\s+(?:likes|like)\\b" html)
  let comments1 ← orElseE comments0
    (extract_first_compact_number search
      "([0-9][0-9,\\.]*\\s*[kmb]?)\\s+(?:comments|comment)\\b" html)
  let views1 ← orElseE views0
    (extract_first_compact_number search
      "([0-9][0-9,\\.]*\\s*[kmb]?)\\s+(?:views|view|plays|play)\\b" html)
  let jd ← extract_json_ld_metrics blocks parseJson html
  return { likes := orOpt likes1 jd.1, comments := orOpt comments1 jd.2.1,
           views := orOpt views1 jd.2.2 }

/-- The per-attempt failure line `f"apify attempt {attempt + 1}: {exc}"`. -/
def attemptMsg (i : ℕ) (e : String) : String :=
  "apify attempt " ++ toString (i + 1) ++ ": " ++ e

/-- Python `sep.join(parts)`. -/
def pyJoin (sep : String) : List String → String
  | [] => ""
  | [x] => x
  | x :: y :: xs => x ++ sep ++ pyJoin sep (y :: xs)

/-- Retry loop of `fetch_instagram_metrics`; `rem` counts the attempts still
allowed, `i` the attempts already made; `attempts i` is the outcome of the
provider call on attempt `i` (network abstracted). Returns the outcome and
the trace of backoff sleeps (seconds). -/
def fetchGo (attempts : ℕ → Except String Metrics) :
    ℕ → ℕ → List String → List ℚ → Except String (Metrics × String) × List ℚ
  | 0, _, errs, sleeps => (.error (pyJoin " | " (errs.take 4)), sleeps)
  | rem + 1, i, errs, sleeps =>
      match attempts i with
      | .ok m => (.ok (m, "apify"), sleeps)
      | .error e =>
          let errs2 := errs ++ [attemptMsg i e]
          let sleeps2 := if rem = 0 then sleeps else sleeps ++ [(3 : ℚ) / 2 * (i + 1)]
          fetchGo attempts rem (i + 1) errs2 sleeps2

/-- `fetch_instagram_metrics` from `app/main.py`: up to `retryCount` attempts
of the Apify provider, tagging a success with the provider identity. -/
def fetch_instagram_metrics (retryCount : ℕ) (attempts : ℕ → Except String Metrics) :
    Except String (Metrics × String) × List ℚ :=
  fetchGo attempts retryCount 0 [] []

/-- A row of the `posts` table (the schedule-relevant columns). -/
structure Post where
  id : ℤ
  post_url : String
  active : Bool
  poll_interval_sec : ℤ
  last_polled_at : Option String
deriving DecidableEq

/-- A row of the append-only `snapshots` table. -/
structure Snapshot where
  post_id : ℤ
  fetched_at : String
  likes : Option ℤ
  comments : Option ℤ
  views : Option ℤ
  source_status : String
  source_error : Option String
deriving DecidableEq

/-- Database state seen by the polling engine. -/
structure TrackerDb where
  posts : List Post
  snapshots : List Snapshot
deriving DecidableEq

/-- `poll_post` from `app/main.py`: look up the active post, fetch (outcome
supplied by `fetch`, with the provider tag on success), append exactly one
snapshot and stamp `last_polled_at := now` (the fetch start time) in both
outcomes. The returned flag records whether a fetch was dispatched. -/
def poll_post (fetch : String → Except String (Metrics × String)) (now : String)
    (post_id : ℤ) (db : TrackerDb) : TrackerDb × Bool :=
  match db.posts.find? (fun p => p.id == post_id && p.active) with
  | Option.none => (db, false)
  | some p =>
      match fetch p.post_url with
      | .ok (m, prov) =>
          ({ posts := db.posts.map (fun q =>
                if q.id == post_id then { q with last_polled_at := some now } else q),
             snapshots := db.snapshots ++
               [⟨post_id, now, m.likes, m.comments, m.views, "ok:" ++ prov, Option.none⟩] }, true)
      | .error e =>
          ({ posts := db.posts.map (fun q =>
                if q.id == post_id then { q with last_polled_at := some now } else q),
             snapshots := db.snapshots ++
               [⟨post_id, now, Option.none, Option.none, Option.none, "error", some e⟩] }, true)

/-- Fuel-driven worker for `chunksOf` (structural recursion so that it
evaluates inside `decide`; `chunksOf` supplies `fuel = l.length`). -/
def chunksGo {α : Type} (bs : ℕ) : ℕ → List α → List (List α)
  | 0, _ => []
  | _, [] => []
  | fuel + 1, x :: xs =>
      (x :: xs).take (max bs 1) :: chunksGo bs fuel ((x :: xs).drop (max bs 1))

/-- The chunking of `poll_post_ids`:
`for start in range(0, len(post_ids), POLL_BATCH_SIZE)` with slicing. The
source clamps `POLL_BATCH_SIZE = max(1, ...)`, mirrored by `max bs 1`. -/
def chunksOf {α : Type} (bs : ℕ) (l : List α) : List (List α) :=
  chunksGo bs l.length l

/-- The sequence of `poll_post` dispatches performed by `poll_post_ids`:
chunks run strictly one after another, and every id of a chunk is dispatched
exactly once (concurrency inside a chunk is not modelled beyond the set and
order of dispatches). -/
def poll_post_ids_dispatch (bs : ℕ) (post_ids : List ℤ) : List ℤ :=
  (chunksOf bs post_ids).flatten

/-- Loop body of `poll_due_posts` for one row: `interval = int(... or 300)`,
the falsy test `if not last_polled_raw`, the `fromisoformat` attempt with
fail-open `except`, and the `now >= last_polled + timedelta(interval)` test;
`parse` abstracts `datetime.fromisoformat` (epoch seconds, `none` =
`ValueError`). Returns the id when the row is due. -/
def poll_due_row (parse : String → Option ℤ) (now : ℤ) (row : Post) : Option ℤ :=
  match row.last_polled_at with
  | Option.none => some row.id
  | some raw =>
      if raw = "" then some row.id
      else
        match parse raw with
        | Option.none => some row.id
        | some t =>
            if now ≥ t + (if row.poll_interval_sec = 0 then 300 else row.poll_interval_sec)
            then some row.id else Option.none

/-- The due-selection of `poll_due_posts` from `app/main.py`: the SQL filter
`WHERE active = 1` followed by the per-row loop; `now` is the current epoch
second. -/
def poll_due_posts (parse : String → Option ℤ) (now : ℤ) (posts : List Post) : List ℤ :=
  (posts.filter (fun p => p.active)).filterMap (poll_due_row parse now)

/-- Python exception classes as the loop boundary distinguishes them:
`except Exception` catches `exc` and lets `base` (BaseException-only:
`asyncio.CancelledError`, `KeyboardInterrupt`) propagate. -/
inductive PyExc where
  | exc (msg : String)
  | base (msg : String)
deriving DecidableEq

/-- One iteration of `polling_loop`: the `try` body awaits the sleep
computation then the sweep; `except Exception: pass` swallows `exc`
failures. -/
def loopIter (sleepR : Except PyExc Unit) (sweepR : Except PyExc ℕ) : Except PyExc Unit :=
  match sleepR with
  | .error (.exc _) => .ok ()
  | .error (.base m) => .error (.base m)
  | .ok _ =>
      match sweepR with
      | .error (.exc _) => .ok ()
      | .error (.base m) => .error (.base m)
      | .ok _ => .ok ()

/-- `polling_loop` from `app/main.py`, unrolled `n` iterations over an
arbitrary sequence of sleep/sweep outcomes: `.ok n` means the loop is alive
and re-armed after `n` iterations. -/
def polling_loop (steps : ℕ → Except PyExc Unit × Except PyExc ℕ) : ℕ → Except PyExc ℕ
  | 0 => .ok 0
  | n + 1 =>
      match polling_loop steps n with
      | .error e => .error e
      | .ok _ =>
          match loopIter (steps n).1 (steps n).2 with
          | .ok _ => .ok (n + 1)
          | .error e => .error e

theorem poll_due_row_id (parse : String → Option ℤ) (now : ℤ) (row : Post) (z : ℤ)
    (h : poll_due_row parse now row = some z) : z = row.id := by
  unfold poll_due_row at h
  repeat' split at h
  all_goals
    first
      | exact (Option.some.inj h).symm
      | exact absurd h (by simp)

theorem poll_due_row_iff (parse : String → Option ℤ) (now : ℤ) (row : Post)
    (hparse_empty : parse "" = Option.none) (hint : row.poll_interval_sec ≠ 0) :
    poll_due_row parse now row = some row.id ↔
      (row.last_polled_at = Option.none ∨
        (∃ s, row.last_polled_at = some s ∧ parse s = Option.none) ∨
        (∃ s t, row.last_polled_at = some s ∧ parse s = some t ∧
          now ≥ t + row.poll_interval_sec)) := by
  unfold poll_due_row
  split
  next hl =>
    simp [hl]
  next raw hl =>
    by_cases hraw : raw = ""
    · rw [if_pos hraw]
      subst hraw
      simp [hl, hparse_empty]
    · rw [if_neg hraw]
      rcases hp : parse raw with _ | t
      · constructor
        · intro _
          exact Or.inr (Or.inl ⟨raw, hl, hp⟩)
        · intro _
          rfl
      · dsimp only
        rw [if_neg hint]
        by_cases hge : now ≥ t + row.poll_interval_sec
        · rw [if_pos hge]
          constructor
          · intro _
            exact Or.inr (Or.inr ⟨raw, t, hl, hp, hge⟩)
          · intro _
            rfl
        · rw [if_neg hge]
          constructor
          · intro h
            exact absurd h (by simp)
          · rintro (hnone | ⟨s, hs, hps⟩ | ⟨s, t2, hs, hps, hge2⟩)
            · rw [hl] at hnone
              exact Option.noConfusion hnone
            · rw [hl] at hs
              injection hs with hss
              subst hss
              rw [hps] at hp
              exact Option.noConfusion hp
            · rw [hl] at hs
              injection hs with hss
              subst hss
              rw [hps] at hp
              injection hp with htt
              subst htt
              exact absurd hge2 hge

/-- C1. Due-set selection: for every active tracked row, `poll_due_posts`
selects it exactly when `last_polled_at` is absent, unparseable, or
`now >= last_polled_at + poll_interval_sec`; it is not selected at
`now = last_polled_at + interval - 1`; inactive rows are never selected.
Row ids are assumed distinct (`posts.id` is a primary key) and the interval
nonzero (the schema bounds it to `[60, 86400]`). -/
theorem poll_due_selects_iff (parse : String → Option ℤ) (now : ℤ) (posts : List Post)
    (hnodup : (posts.map Post.id).Nodup)
    (hparse_empty : parse "" = Option.none)
    (r : Post) (hr : r ∈ posts) (hint : r.poll_interval_sec ≠ 0) :
    (r.id ∈ poll_due_posts parse now posts ↔
      r.active = true ∧
        (r.last_polled_at = Option.none ∨
          (∃ s, r.last_polled_at = some s ∧ parse s = Option.none) ∨
          (∃ s t, r.last_polled_at = some s ∧ parse s = some t ∧
            now ≥ t + r.poll_interval_sec))) ∧
    (∀ s t, r.last_polled_at = some s → parse s = some t →
      r.id ∉ poll_due_posts parse (t + r.poll_interval_sec - 1) posts) := by
  have hmem : ∀ (now2 : ℤ), r.id ∈ poll_due_posts parse now2 posts ↔
      r.active = true ∧ poll_due_row parse now2 r = some r.id := by
    intro now2
    unfold poll_due_posts
    rw [List.mem_filterMap]
    constructor
    · rintro ⟨p, hp, hrow⟩
      rw [List.mem_filter] at hp
      have hid : r.id = p.id := poll_due_row_id parse now2 p r.id hrow
      have hpr : p = r :=
        List.inj_on_of_nodup_map hnodup hp.1 hr hid.symm
      subst hpr
      exact ⟨by simpa using hp.2, hrow⟩
    · rintro ⟨hact, hrow⟩
      exact ⟨r, List.mem_filter.mpr ⟨hr, by simpa using hact⟩, hrow⟩
  constructor
  · rw [hmem now, poll_due_row_iff parse now r hparse_empty hint]
  · intro s t hs hp hin
    rw [hmem _, poll_due_row_iff parse _ r hparse_empty hint] at hin
    rcases hin.2 with hnone | ⟨s2, hs2, hps2⟩ | ⟨s2, t2, hs2, hps2, hge⟩
    · rw [hs] at hnone
      exact Option.noConfusion hnone
    · rw [hs] at hs2
      injection hs2 with hss
      subst hss
      rw [hps2] at hp
      exact Option.noConfusion hp
    · rw [hs] at hs2
      injection hs2 with hss
      subst hss
      rw [hps2] at hp
      injection hp with htt
      subst htt
      omega

theorem poll_due_selects_iff_witness :
    ((([⟨1, "u", true, 300, some "T"⟩, ⟨2, "v", true, 300, Option.none⟩] :
        List Post).map Post.id).Nodup ∧
      (fun s => if s = "T" then some (100 : ℤ) else Option.none) "" = Option.none ∧
      (⟨1, "u", true, 300, some "T"⟩ : Post) ∈
        ([⟨1, "u", true, 300, some "T"⟩, ⟨2, "v", true, 300, Option.none⟩] : List Post) ∧
      (⟨1, "u", true, 300, some "T"⟩ : Post).poll_interval_sec ≠ 0) ∧
    (∀ s t, (⟨1, "u", true, 300, some "T"⟩ : Post).last_polled_at = some s →
      (fun s => if s = "T" then some (100 : ℤ) else Option.none) s = some t →
      (1 : ℤ) ∉ poll_due_posts (fun s => if s = "T" then some (100 : ℤ) else Option.none)
        (t + 300 - 1)
        ([⟨1, "u", true, 300, some "T"⟩, ⟨2, "v", true, 300, Option.none⟩] : List Post)) :=
  ⟨⟨by decide, by decide, by decide, by decide⟩,
    (poll_due_selects_iff (fun s => if s = "T" then some (100 : ℤ) else Option.none) 0
      [⟨1, "u", true, 300, some "T"⟩, ⟨2, "v", true, 300, Option.none⟩]
      (by decide) (by decide) ⟨1, "u", true, 300, some "T"⟩ (by decide) (by decide)).2⟩

/-- C6. The Actor-API mapping does not preserve reported zeros for likes and
views: the Python `or`-chains treat `0` as falsy, so `likesCount = 0` and
`videoPlayCount = 0` map to `None`, not `0` (and with no other field present
the whole mapping fails as all-null); only the comments path preserves zero
(`commentsCount` via `is not None`, and an empty `comments` list maps
to 0). -/
theorem apify_zero_likes_dropped :
    fetch_metrics_from_apify
        (.list [.dict [("likesCount", .int 0), ("commentsCount", .int 5)]]) =
      .ok { likes := Option.none, comments := some 5, views := Option.none } ∧
    fetch_metrics_from_apify
        (.list [.dict [("videoPlayCount", .int 0), ("commentsCount", .int 5)]]) =
      .ok { likes := Option.none, comments := some 5, views := Option.none } ∧
    fetch_metrics_from_apify (.list [.dict [("likesCount", .int 0)]]) =
      .error "Apify response missing views/likes/comments fields" ∧
    fetch_metrics_from_apify (.list [.dict [("likesCount", .int 7), ("comments", .list [])]]) =
      .ok { likes := some 7, comments := some 0, views := Option.none } :=
  ⟨by decide, by decide, by decide, by decide⟩

theorem chunksGo_flatten {α : Type} (bs : ℕ) :
    ∀ (fuel : ℕ) (l : List α), l.length ≤ fuel → (chunksGo bs fuel l).flatten = l := by
  intro fuel
  induction fuel with
  | zero =>
    intro l h
    cases l with
    | nil => rfl
    | cons x xs => simp at h
  | succ f ih =>
    intro l h
    cases l with
    | nil => rfl
    | cons x xs =>
      have hlen : ((x :: xs).drop (max bs 1)).length ≤ f := by
        have h1 : 1 ≤ max bs 1 := le_max_right bs 1
        simp only [List.length_drop, List.length_cons]
        simp only [List.length_cons] at h
        omega
      simp only [chunksGo, List.flatten_cons]
      rw [ih _ hlen, List.take_append_drop]

theorem chunksGo_mem_length {α : Type} (bs : ℕ) (hbs : 1 ≤ bs) :
    ∀ (fuel : ℕ) (l : List α) (c : List α), c ∈ chunksGo bs fuel l → c.length ≤ bs := by
  intro fuel
  induction fuel with
  | zero =>
    intro l c hc
    cases l <;> simp [chunksGo] at hc
  | succ f ih =>
    intro l c hc
    cases l with
    | nil => simp [chunksGo] at hc
    | cons x xs =>
      simp only [chunksGo, List.mem_cons] at hc
      rcases hc with hc | hc
      · subst hc
        have hmax : (max bs 1) = bs := max_eq_left hbs
        rw [hmax]
        exact List.length_take_le bs (x :: xs)
      · exact ih _ _ hc

/-- C8. Batch partitioning and exactly-once dispatch: `poll_post_ids`
partitions the id list into consecutive chunks of at most `POLL_BATCH_SIZE`
in the original order, runs chunks one after another, and dispatches exactly
one `poll_post` call per id; for 12 ids and batch size 5 the chunks have
sizes 5, 5, 2. -/
theorem poll_post_ids_partition (bs : ℕ) (hbs : 1 ≤ bs) (post_ids : List ℤ) :
    poll_post_ids_dispatch bs post_ids = post_ids ∧
    (∀ z : ℤ, (poll_post_ids_dispatch bs post_ids).count z = post_ids.count z) ∧
    (∀ c ∈ chunksOf bs post_ids, c.length ≤ bs) ∧
    (chunksOf 5 ([1, 2, 3, 4, 5, 6, 7, 8, 9, 10, 11, 12] : List ℤ)).map List.length =
      [5, 5, 2] := by
  have h1 : poll_post_ids_dispatch bs post_ids = post_ids :=
    chunksGo_flatten bs post_ids.length post_ids le_rfl
  exact ⟨h1, fun z => by rw [h1], fun c hc => chunksGo_mem_length bs hbs _ _ c hc, by decide⟩

theorem poll_post_ids_partition_witness :
    1 ≤ 5 ∧
    poll_post_ids_dispatch 5 ([1, 2, 3, 4, 5, 6, 7, 8, 9, 10, 11, 12] : List ℤ) =
      [1, 2, 3, 4, 5, 6, 7, 8, 9, 10, 11, 12] :=
  ⟨by decide, (poll_post_ids_partition 5 (by decide) [1,2,3,4,5,6,7,8,9,10,11,12]).1⟩

/-- C9. Scheduler-loop resilience: whatever Exception-class failures the
sleep computation or the sweep raise at each iteration, `polling_loop`
survives every iteration and re-arms (only BaseException-class signals such
as task cancellation escape `except Exception`, which is the designed
shutdown path, not a sweep failure). -/
theorem polling_loop_resilient (steps : ℕ → Except PyExc Unit × Except PyExc ℕ)
    (h : ∀ k m, (steps k).1 ≠ .error (.base m) ∧ (steps k).2 ≠ .error (.base m)) :
    ∀ n, polling_loop steps n = .ok n := by
  intro n
  induction n with
  | zero => rfl
  | succ n ih =>
    have hiter : loopIter (steps n).1 (steps n).2 = .ok () := by
      rcases h1 : (steps n).1 with e | u
      · rcases e with m | m
        · simp [loopIter, h1]
        · exact absurd h1 (h n m).1
      · rcases h2 : (steps n).2 with e2 | v
        · rcases e2 with m | m
          · simp [loopIter, h1, h2]
          · exact absurd h2 (h n m).2
        · simp [loopIter, h1, h2]
    simp [polling_loop, ih, hiter]

theorem polling_loop_resilient_witness :
    (∀ k m,
      ((fun _ : ℕ => ((Except.ok () : Except PyExc Unit),
          (Except.error (PyExc.exc "sweep failed") : Except PyExc ℕ))) k).1 ≠
        Except.error (.base m) ∧
      ((fun _ : ℕ => ((Except.ok () : Except PyExc Unit),
          (Except.error (PyExc.exc "sweep failed") : Except PyExc ℕ))) k).2 ≠
        Except.error (.base m)) ∧
    polling_loop (fun _ : ℕ => ((Except.ok () : Except PyExc Unit),
        (Except.error (PyExc.exc "sweep failed") : Except PyExc ℕ))) 3 = .ok 3 :=
  ⟨fun _ _ => ⟨fun hh => by simp at hh, fun hh => by simp at hh⟩,
    polling_loop_resilient _ (fun _ _ => ⟨fun hh => by simp at hh, fun hh => by simp at hh⟩) 3⟩

/-- C10. Unknown or inactive id: when no active post has the requested id,
`poll_post` performs no fetch, appends no snapshot and changes no state. -/
theorem poll_post_unknown_id_noop (fetch : String → Except String (Metrics × String))
    (now : String) (post_id : ℤ) (db : TrackerDb)
    (h : db.posts.find? (fun p => p.id == post_id && p.active) = Option.none) :
    poll_post fetch now post_id db = (db, false) := by
  unfold poll_post
  rw [h]

theorem poll_post_unknown_id_noop_witness :
    (([⟨1, "u", false, 300, Option.none⟩] : List Post).find?
        (fun p => p.id == (1 : ℤ) && p.active) = Option.none) ∧
    poll_post (fun _ => .error "boom") "2026-01-01T00:00:00+00:00" 1
        ⟨[⟨1, "u", false, 300, Option.none⟩], []⟩ =
      (⟨[⟨1, "u", false, 300, Option.none⟩], []⟩, false) :=
  ⟨by decide, poll_post_unknown_id_noop _ _ _ _ (by decide)⟩

theorem exceptBind_ok {α β : Type} (x : Except String α) (f : α → Except String β) (b : β)
    (h : (x >>= f) = .ok b) : ∃ a, x = .ok a ∧ f a = .ok b := by
  cases x with
  | error e => exact absurd h (by simp [Bind.bind, Except.bind])
  | ok a => exact ⟨a, rfl, by simpa [Bind.bind, Except.bind] using h⟩

/-- C5. Per-item outcome recording: for an existing active item, one
`poll_post` call appends exactly one snapshot — on success with status
`"ok:<provider>"` and the returned metrics, on failure with status
`"error"`, the failure message and all three metric fields null — and in
both cases stamps the item's `last_polled_at` with the fetch start time. -/
theorem poll_post_outcome_recording (fetch : String → Except String (Metrics × String))
    (now : String) (post_id : ℤ) (db : TrackerDb) (p : Post)
    (hfind : db.posts.find? (fun q => q.id == post_id && q.active) = some p) :
    ((poll_post fetch now post_id db).1.snapshots =
      db.snapshots ++
        [match fetch p.post_url with
          | .ok (m, prov) =>
              ⟨post_id, now, m.likes, m.comments, m.views, "ok:" ++ prov, Option.none⟩
          | .error e =>
              ⟨post_id, now, Option.none, Option.none, Option.none, "error", some e⟩]) ∧
    (∀ q ∈ (poll_post fetch now post_id db).1.posts, q.id = post_id →
      q.last_polled_at = some now) ∧
    (poll_post fetch now post_id db).2 = true := by
  rcases hf : fetch p.post_url with e | mp
  · refine ⟨by simp [poll_post, hfind, hf], ?_, by simp [poll_post, hfind, hf]⟩
    intro q hq hqid
    simp only [poll_post, hfind, hf] at hq
    rw [List.mem_map] at hq
    obtain ⟨q0, _, hq0e⟩ := hq
    by_cases h0 : q0.id = post_id
    · rw [← hq0e]
      simp [h0]
    · rw [← hq0e] at hqid
      simp [beq_iff_eq, h0] at hqid
  · obtain ⟨m, prov⟩ := mp
    refine ⟨by simp [poll_post, hfind, hf], ?_, by simp [poll_post, hfind, hf]⟩
    intro q hq hqid
    simp only [poll_post, hfind, hf] at hq
    rw [List.mem_map] at hq
    obtain ⟨q0, _, hq0e⟩ := hq
    by_cases h0 : q0.id = post_id
    · rw [← hq0e]
      simp [h0]
    · rw [← hq0e] at hqid
      simp [beq_iff_eq, h0] at hqid

theorem poll_post_outcome_recording_witness :
    (([⟨1, "url1", true, 86400, Option.none⟩] : List Post).find?
        (fun q => q.id == (1 : ℤ) && q.active) = some ⟨1, "url1", true, 86400, Option.none⟩) ∧
    (poll_post (fun _ => .error "boom") "2026-01-01T00:00:00+00:00" 1
        ⟨[⟨1, "url1", true, 86400, Option.none⟩], []⟩).1.snapshots =
      ([] : List Snapshot) ++
        [⟨1, "2026-01-01T00:00:00+00:00", Option.none, Option.none, Option.none,
          "error", some "boom"⟩] :=
  ⟨by decide,
    (poll_post_outcome_recording (fun _ => .error "boom") "2026-01-01T00:00:00+00:00" 1
      ⟨[⟨1, "url1", true, 86400, Option.none⟩], []⟩ ⟨1, "url1", true, 86400, Option.none⟩
      (by decide)).1⟩

/-- C7. HTML extraction precedence: whenever a structured-data pattern
yields a likes value and the JSON-LD pass also yields one, a successful
`extract_metrics_from_html` reports the structured-data value for likes
(strategies are tried in order with first success winning). -/
theorem extract_html_precedence (search : String → String → Option String)
    (blocks : String → List String) (parseJson : String → Option PyVal)
    (html : String) (v w : ℤ) (jc jv : Option ℤ) (t : Metrics)
    (hstruct : extract_first_int search likesPatterns html = .ok (some v))
    (hld : extract_json_ld_metrics blocks parseJson html = .ok (some w, jc, jv))
    (hok : extract_metrics_from_html search blocks parseJson html = .ok t) :
    t.likes = some v := by
  unfold extract_metrics_from_html at hok
  obtain ⟨l0, hl0, hok⟩ := exceptBind_ok _ _ _ hok
  rw [hstruct] at hl0
  injection hl0 with hl0
  subst hl0
  obtain ⟨c0, _, hok⟩ := exceptBind_ok _ _ _ hok
  obtain ⟨v0, _, hok⟩ := exceptBind_ok _ _ _ hok
  obtain ⟨l1, hl1, hok⟩ := exceptBind_ok _ _ _ hok
  simp only [orElseE, pure, Except.pure] at hl1
  injection hl1 with hl1
  subst hl1
  obtain ⟨c1, _, hok⟩ := exceptBind_ok _ _ _ hok
  obtain ⟨v1, _, hok⟩ := exceptBind_ok _ _ _ hok
  obtain ⟨jd, _, hok⟩ := exceptBind_ok _ _ _ hok
  simp only [pure, Except.pure] at hok
  injection hok with hok
  rw [← hok]
  rfl

/-- Concrete regex-engine stub for the precedence witness: only the
`"like_count"` structured pattern matches, with group text `"7"`. -/
def wSearch : String → String → Option String :=
  fun p _ => if p == "\"like_count\"\\s*:\\s*(\\d+)" then some "7" else Option.none

/-- Concrete block finder for the precedence witness: one JSON-LD block. -/
def wBlocks : String → List String := fun _ => ["LD"]

/-- Concrete JSON parser stub for the precedence witness: the block parses
to an interaction-statistics list reporting 9 likes. -/
def wParse : String → Option PyVal :=
  fun _ => some (.dict [("interactionStatistic",
    .list [.dict [("userInteractionCount", .int 9), ("interactionType", .str "LikeAction")]])])

theorem extract_html_precedence_witness :
    (extract_first_int wSearch likesPatterns "doc" = .ok (some 7) ∧
      extract_json_ld_metrics wBlocks wParse "doc" = .ok (some 9, Option.none, Option.none) ∧
      extract_metrics_from_html wSearch wBlocks wParse "doc" =
        .ok { likes := some 7, comments := Option.none, views := Option.none }) ∧
    ({ likes := some 7, comments := Option.none, views := Option.none } : Metrics).likes =
      some 7 :=
  ⟨⟨by decide, by decide, by decide⟩,
    extract_html_precedence wSearch wBlocks wParse "doc" 7 9 Option.none Option.none _
      (by decide) (by decide) (by decide)⟩

theorem fetchGo_all_fail (attempts : ℕ → Except String Metrics) (f : ℕ → String)
    (hfail : ∀ j, attempts j = .error (f j)) :
    ∀ (rem i : ℕ) (errs : List String) (sleeps : List ℚ),
      fetchGo attempts rem i errs sleeps =
        (.error (pyJoin " | "
            ((errs ++ (List.range' i rem).map (fun j => attemptMsg j (f j))).take 4)),
         sleeps ++ (List.range' i (rem - 1)).map (fun j : ℕ => (3 : ℚ) / 2 * (j + 1))) := by
  intro rem
  induction rem with
  | zero =>
    intro i errs sleeps
    simp [fetchGo]
  | succ r ih =>
    intro i errs sleeps
    simp only [fetchGo]
    rw [hfail i]
    dsimp only
    rcases r with _ | r2
    · rw [if_pos rfl, ih (i + 1)]
      simp [List.range'_one]
    · have hne : ¬(r2 + 1 = 0) := by omega
      rw [if_neg hne, ih (i + 1)]
      rw [List.range'_succ i (r2 + 1) 1]
      have hr : List.range' i (r2 + 1 + 1 - 1) = i :: List.range' (i + 1) r2 := by
        have h2 : r2 + 1 + 1 - 1 = r2 + 1 := by omega
        rw [h2, List.range'_succ i r2 1]
      rw [hr]
      simp

theorem fetchGo_first_success (attempts : ℕ → Except String Metrics) (m : Metrics) (k : ℕ)
    (hk : attempts k = .ok m) (hfail : ∀ j, j < k → ∃ e, attempts j = .error e) :
    ∀ (rem i : ℕ) (errs : List String) (sleeps : List ℚ), i ≤ k → k < i + rem →
      fetchGo attempts rem i errs sleeps =
        (.ok (m, "apify"),
         sleeps ++ (List.range' i (k - i)).map (fun j : ℕ => (3 : ℚ) / 2 * (j + 1))) := by
  intro rem
  induction rem with
  | zero =>
    intro i errs sleeps hik hki
    omega
  | succ r ih =>
    intro i errs sleeps hik hki
    by_cases hek : i = k
    · subst hek
      simp only [fetchGo]
      rw [hk]
      simp
    · have hlt : i < k := by omega
      obtain ⟨e, he⟩ := hfail i hlt
      simp only [fetchGo]
      rw [he]
      dsimp only
      rcases r with _ | r2
      · omega
      · have hne : ¬(r2 + 1 = 0) := by omega
        rw [if_neg hne, ih (i + 1) _ _ (by omega) (by omega)]
        have hr : List.range' i (k - i) = i :: List.range' (i + 1) (k - (i + 1)) := by
          have h2 : k - i = (k - (i + 1)) + 1 := by omega
          rw [h2, List.range'_succ i _ 1]
        rw [hr]
        simp

/-- C4. Orchestrator retry policy: up to `RETRY_COUNT` provider attempts
with a `1.5 * attemptNumber` wait after each failed non-final attempt and
none after the last; a success is returned tagged with the provider
identity after the preceding failures; exhaustion fails with the
`" | "`-concatenation of at most the first 4 per-attempt failure lines, and
with `RETRY_COUNT = 3` the terminal message contains all 3 diagnostics. -/
theorem fetch_retry_policy (retryCount : ℕ) (attempts : ℕ → Except String Metrics)
    (m : Metrics) (k : ℕ)
    (hfail_k : ∀ j, j < k → ∃ e, attempts j = .error e) (hk : attempts k = .ok m)
    (hklt : k < retryCount)
    (allfail : ℕ → Except String Metrics) (g : ℕ → String)
    (hallfail : ∀ j, allfail j = .error (g j)) :
    (fetch_instagram_metrics retryCount attempts =
      (.ok (m, "apify"), (List.range' 0 k).map (fun j : ℕ => (3 : ℚ) / 2 * (j + 1)))) ∧
    (fetch_instagram_metrics retryCount allfail =
      (.error (pyJoin " | "
          (((List.range' 0 retryCount).map (fun j => attemptMsg j (g j))).take 4)),
       (List.range' 0 (retryCount - 1)).map (fun j : ℕ => (3 : ℚ) / 2 * (j + 1)))) ∧
    (retryCount = 3 →
      ∃ s, (fetch_instagram_metrics retryCount allfail).1 = .error s ∧
        (∃ a b, s = a ++ g 0 ++ b) ∧ (∃ a b, s = a ++ g 1 ++ b) ∧
        (∃ a b, s = a ++ g 2 ++ b)) := by
  refine ⟨?_, ?_, ?_⟩
  · unfold fetch_instagram_metrics
    rw [fetchGo_first_success attempts m k hk hfail_k retryCount 0 [] []
      (by omega) (by omega)]
    simp
  · unfold fetch_instagram_metrics
    rw [fetchGo_all_fail allfail g hallfail retryCount 0 [] []]
    simp
  · intro hrc
    subst hrc
    unfold fetch_instagram_metrics
    rw [fetchGo_all_fail allfail g hallfail 3 0 [] []]
    refine ⟨_, rfl, ?_, ?_, ?_⟩
    · exact ⟨"apify attempt " ++ toString (0 + 1) ++ ": ",
        " | " ++ attemptMsg 1 (g 1) ++ " | " ++ attemptMsg 2 (g 2), by
          show pyJoin " | " (([] ++ (List.range' 0 3).map
              (fun j => attemptMsg j (g j))).take 4) = _
          simp [List.range', pyJoin, attemptMsg, String.append_assoc]⟩
    · exact ⟨attemptMsg 0 (g 0) ++ " | " ++ ("apify attempt " ++ toString (1 + 1) ++ ": "),
        " | " ++ attemptMsg 2 (g 2), by
          show pyJoin " | " (([] ++ (List.range' 0 3).map
              (fun j => attemptMsg j (g j))).take 4) = _
          simp [List.range', pyJoin, attemptMsg, String.append_assoc]⟩
    · exact ⟨attemptMsg 0 (g 0) ++ " | " ++ attemptMsg 1 (g 1) ++ " | " ++
        ("apify attempt " ++ toString (2 + 1) ++ ": "), "", by
          show pyJoin " | " (([] ++ (List.range' 0 3).map
              (fun j => attemptMsg j (g j))).take 4) = _
          simp [List.range', pyJoin, attemptMsg, String.append_assoc]⟩

/-- Concrete provider behavior for the retry witness: attempts 0 and 1 fail,
attempt 2 succeeds. -/
def wAttempts : ℕ → Except String Metrics :=
  fun j => if j < 2 then .error ("boom" ++ toString j)
    else .ok { likes := some 1, comments := some 2, views := some 3 }

/-- Concrete always-failing provider for the retry witness. -/
def wAllFail : ℕ → Except String Metrics := fun j => .error ("boom" ++ toString j)

theorem fetch_retry_policy_witness :
    ((∀ j, j < 2 → ∃ e, wAttempts j = .error e) ∧ wAttempts 2 =
        .ok { likes := some 1, comments := some 2, views := some 3 } ∧ (2 : ℕ) < 3 ∧
      (∀ j, wAllFail j = .error ("boom" ++ toString j))) ∧
    fetch_instagram_metrics 3 wAttempts =
      (.ok ({ likes := some 1, comments := some 2, views := some 3 }, "apify"),
       (List.range' 0 2).map (fun j : ℕ => (3 : ℚ) / 2 * (j + 1))) :=
  ⟨⟨fun j hj => ⟨"boom" ++ toString j, by
      unfold wAttempts
      rw [if_pos hj]⟩,
    by decide, by decide, fun j => rfl⟩,
    (fetch_retry_policy 3 wAttempts { likes := some 1, comments := some 2, views := some 3 } 2
      (fun j hj => ⟨"boom" ++ toString j, by
        unfold wAttempts
        rw [if_pos hj]⟩)
      (by decide) (by decide) wAllFail (fun j => "boom" ++ toString j) (fun j => rfl)).1⟩

theorem isAsciiDigit_toNat {c : Char} (h : isAsciiDigit c = true) :
    48 ≤ c.toNat ∧ c.toNat ≤ 57 := by
  unfold isAsciiDigit at h
  simp only [Bool.and_eq_true, decide_eq_true_eq] at h
  exact ⟨h.1, h.2⟩

theorem digit_not_space {c : Char} (h : isAsciiDigit c = true) : isPySpace c = false := by
  obtain ⟨h1, h2⟩ := isAsciiDigit_toNat h
  unfold isPySpace
  simp only [Bool.or_eq_false_iff, beq_eq_false_iff_ne, ne_eq]
  omega

theorem digit_not_comma {c : Char} (h : isAsciiDigit c = true) : c ≠ ',' := by
  obtain ⟨h1, _⟩ := isAsciiDigit_toNat h
  intro hc
  subst hc
  exact absurd h1 (by decide)

theorem digit_toLower {c : Char} (h : isAsciiDigit c = true) : Char.toLower c = c := by
  obtain ⟨_, h2⟩ := isAsciiDigit_toNat h
  have hno : ¬(c.toNat ≥ 65 ∧ c.toNat ≤ 90) := by omega
  show (if c.toNat ≥ 65 ∧ c.toNat ≤ 90 then Char.ofNat (c.toNat + 32) else c) = c
  rw [if_neg hno]

theorem dropWhile_all_false {p : Char → Bool} {l : List Char} (h : ∀ c ∈ l, p c = false) :
    l.dropWhile p = l := by
  cases l with
  | nil => rfl
  | cons x xs =>
      rw [List.dropWhile_cons, if_neg (by simp [h x (List.mem_cons_self x xs)])]

theorem pyClean_digits (s : String) (h : s.data.all isAsciiDigit = true) :
    pyClean s = s.data := by
  have hall : ∀ c ∈ s.data, isAsciiDigit c = true := by
    simpa [List.all_eq_true] using h
  unfold pyClean pyStrip
  rw [dropWhile_all_false (fun c hc => digit_not_space (hall c hc))]
  rw [dropWhile_all_false (fun c hc => digit_not_space (hall c (by simpa using hc)))]
  rw [List.reverse_reverse]
  rw [List.filter_eq_self.mpr (fun a ha => by simp [digit_not_comma (hall a ha)])]
  exact (List.map_congr_left (fun a ha => digit_toLower (hall a ha))).trans (List.map_id _)

theorem splitCompact_digits (cs : List Char) (h : cs.all isAsciiDigit = true) :
    splitCompact cs = Option.none := by
  have hdw : cs.dropWhile isAsciiDigit = [] :=
    List.dropWhile_eq_nil_iff.mpr (by simpa [List.all_eq_true] using h)
  unfold splitCompact
  rw [hdw]
  dsimp only
  split
  · rfl
  · rfl

theorem coerce_int_digit_string (s : String) (hne : s.data ≠ [])
    (hall : s.data.all isAsciiDigit = true) (hlen : s.data.length ≤ 4300) :
    coerce_int (.str s) = .ok (some (digitsToNat s.data)) := by
  have hd : pyIsDigitStr s.data = true := by
    unfold pyIsDigitStr
    rw [hall]
    simp [List.isEmpty_iff, hne]
  unfold coerce_int
  dsimp only
  rw [pyClean_digits s hall, splitCompact_digits s.data hall]
  rw [if_pos hd]
  unfold pyIntOfDigits
  rw [if_neg (by omega)]
  rfl

theorem coerce_int_digit_overflow (s : String)
    (hall : s.data.all isAsciiDigit = true) (hlen : s.data.length > 4300) :
    coerce_int (.str s) =
      .error "Exceeds the limit (4300 digits) for integer string conversion" := by
  have hne : s.data ≠ [] := by
    intro h
    rw [h] at hlen
    simp at hlen
  have hd : pyIsDigitStr s.data = true := by
    unfold pyIsDigitStr
    rw [hall]
    simp [List.isEmpty_iff, hne]
  unfold coerce_int
  dsimp only
  rw [pyClean_digits s hall, splitCompact_digits s.data hall]
  rw [if_pos hd]
  unfold pyIntOfDigits
  rw [if_pos hlen]
  rfl

theorem floor_nat_div (n d : ℕ) (hd : 0 < d) :
    ⌊(n : ℚ) / (d : ℚ)⌋ = ((n / d : ℕ) : ℤ) := by
  have hdq : (0 : ℚ) < (d : ℚ) := by exact_mod_cast hd
  have h1 : ((((n / d : ℕ) : ℤ)) : ℚ) ≤ (n : ℚ) / (d : ℚ) := by
    rw [le_div_iff₀ hdq]
    have hnat : (n / d) * d ≤ n := Nat.div_mul_le_self n d
    exact_mod_cast hnat
  have h2 : (n : ℚ) / (d : ℚ) < (((n / d : ℕ) : ℤ) : ℚ) + 1 := by
    rw [div_lt_iff₀ hdq]
    have hnat : n < (n / d + 1) * d := by
      have hm : n % d < d := Nat.mod_lt n hd
      calc n = d * (n / d) + n % d := (Nat.div_add_mod n d).symm
        _ < d * (n / d) + d := Nat.add_lt_add_left hm _
        _ = (n / d + 1) * d := by ring
    exact_mod_cast hnat
  exact Int.floor_eq_iff.mpr ⟨h1, h2⟩

theorem pyTrunc_finite_val (sg : Bool) (n : ℕ) (e : ℤ) :
    pyTrunc (.finite sg n e) = .ok (truncRat (PyFloat.val (.finite sg n e))) := by
  have hpos : (0 : ℚ) ≤ (n : ℚ) * (2 : ℚ) ^ (e - 52) := by positivity
  have hcore : ((if 52 ≤ e then n * 2 ^ (e - 52).toNat else n / 2 ^ (52 - e).toNat : ℕ) : ℤ) =
      ⌊(n : ℚ) * (2 : ℚ) ^ (e - 52)⌋ := by
    by_cases h52 : 52 ≤ e
    · rw [if_pos h52]
      have hval : (n : ℚ) * (2 : ℚ) ^ (e - 52) = ((n * 2 ^ (e - 52).toNat : ℕ) : ℚ) := by
        push_cast
        rw [← zpow_natCast (2 : ℚ) (e - 52).toNat, Int.toNat_of_nonneg (by omega)]
      rw [hval, Int.floor_natCast]
    · rw [if_neg h52]
      have hval : (n : ℚ) * (2 : ℚ) ^ (e - 52) = (n : ℚ) / ((2 ^ (52 - e).toNat : ℕ) : ℚ) := by
        have hp : ((2 ^ (52 - e).toNat : ℕ) : ℚ) = (2 : ℚ) ^ ((52 : ℤ) - e) := by
          push_cast
          rw [← zpow_natCast (2 : ℚ) (52 - e).toNat, Int.toNat_of_nonneg (by omega)]
        rw [hp, show e - 52 = -(52 - e) by ring, zpow_neg, div_eq_mul_inv]
      rw [hval, floor_nat_div n (2 ^ (52 - e).toNat) (pow_pos (by norm_num) _)]
  cases sg with
  | true =>
      have hL : pyTrunc (.finite true n e) =
          .ok ((if 52 ≤ e then n * 2 ^ (e - 52).toNat else n / 2 ^ (52 - e).toNat : ℕ) : ℤ) := rfl
      have hV : PyFloat.val (.finite true n e) = (n : ℚ) * (2 : ℚ) ^ (e - 52) := by
        show (1 : ℚ) * (n : ℚ) * (2 : ℚ) ^ (e - 52) = _
        ring
      rw [hL, hV]
      unfold truncRat
      rw [if_pos hpos, ← hcore]
  | false =>
      have hL : pyTrunc (.finite false n e) =
          .ok (-((if 52 ≤ e then n * 2 ^ (e - 52).toNat else n / 2 ^ (52 - e).toNat : ℕ) : ℤ)) :=
        rfl
      have hV : PyFloat.val (.finite false n e) = -((n : ℚ) * (2 : ℚ) ^ (e - 52)) := by
        show (-1 : ℚ) * (n : ℚ) * (2 : ℚ) ^ (e - 52) = _
        ring
      rw [hL, hV]
      unfold truncRat
      by_cases hz : (0 : ℚ) ≤ -((n : ℚ) * (2 : ℚ) ^ (e - 52))
      · have h0 : (n : ℚ) * (2 : ℚ) ^ (e - 52) = 0 := le_antisymm (by linarith) hpos
        have hm0 : ((if 52 ≤ e then n * 2 ^ (e - 52).toNat
            else n / 2 ^ (52 - e).toNat : ℕ) : ℤ) = 0 := by
          rw [hcore, h0]
          simp
        rw [if_pos hz, h0, hm0]
        simp
      · rw [if_neg hz, neg_neg, ← hcore]

theorem exp2_spec (N D : ℕ) (hN : 0 < N) (hD : 0 < D) :
    (2 : ℚ) ^ exp2 N D ≤ (N : ℚ) / D ∧ (N : ℚ) / D < 2 ^ (exp2 N D + 1) := by
  obtain ⟨haN, hbN⟩ := natLog2_spec N hN
  obtain ⟨haD, hbD⟩ := natLog2_spec D hD
  have hDq : (0 : ℚ) < (D : ℚ) := by exact_mod_cast hD
  have h2 : (0 : ℚ) < 2 := by norm_num
  have h2z : (2 : ℚ) ≠ 0 := by norm_num
  set α : ℕ := natLog2 N with hadef
  set β : ℕ := natLog2 D with hbdef
  have haNq : (2 : ℚ) ^ (α : ℤ) ≤ (N : ℚ) := by
    rw [zpow_natCast]
    exact_mod_cast haN
  have hbNq : (N : ℚ) < 2 ^ ((α : ℤ) + 1) := by
    have hcast : ((α : ℤ) + 1) = ((α + 1 : ℕ) : ℤ) := by push_cast; ring
    rw [hcast, zpow_natCast]
    exact_mod_cast hbN
  have haDq : (2 : ℚ) ^ (β : ℤ) ≤ (D : ℚ) := by
    rw [zpow_natCast]
    exact_mod_cast haD
  have hbDq : (D : ℚ) < 2 ^ ((β : ℤ) + 1) := by
    have hcast : ((β : ℤ) + 1) = ((β + 1 : ℕ) : ℤ) := by push_cast; ring
    rw [hcast, zpow_natCast]
    exact_mod_cast hbD
  have hup : (N : ℚ) / D < 2 ^ (((α : ℤ) - β) + 1) := by
    rw [div_lt_iff₀ hDq]
    calc (N : ℚ) < 2 ^ ((α : ℤ) + 1) := hbNq
      _ = 2 ^ (((α : ℤ) - β) + 1) * 2 ^ (β : ℤ) := by
          rw [← zpow_add₀ h2z]
          congr 1
          ring
      _ ≤ 2 ^ (((α : ℤ) - β) + 1) * D :=
          mul_le_mul_of_nonneg_left haDq (zpow_pos h2 _).le
  have hlow : (2 : ℚ) ^ (((α : ℤ) - β) - 1) ≤ (N : ℚ) / D := by
    rw [le_div_iff₀ hDq]
    calc (2 : ℚ) ^ (((α : ℤ) - β) - 1) * D
        ≤ 2 ^ (((α : ℤ) - β) - 1) * 2 ^ ((β : ℤ) + 1) :=
          mul_le_mul_of_nonneg_left hbDq.le (zpow_pos h2 _).le
      _ = 2 ^ (α : ℤ) := by
          rw [← zpow_add₀ h2z]
          congr 1
          ring
      _ ≤ (N : ℚ) := haNq
  simp only [exp2]
  rw [← hadef, ← hbdef]
  set e0 : ℤ := (α : ℤ) - (β : ℤ) with he0
  by_cases hsgn : (0 : ℤ) ≤ e0
  · rw [if_pos hsgn]
    simp only [decide_eq_true_eq]
    have hpow : (2 : ℚ) ^ e0 = ((2 ^ e0.toNat : ℕ) : ℚ) := by
      push_cast
      rw [← zpow_natCast (2 : ℚ) e0.toNat, Int.toNat_of_nonneg hsgn]
    by_cases hcond : D * 2 ^ e0.toNat ≤ N
    · rw [if_pos hcond]
      refine ⟨?_, hup⟩
      rw [le_div_iff₀ hDq, hpow]
      rw [Nat.mul_comm] at hcond
      exact_mod_cast hcond
    · rw [if_neg hcond]
      refine ⟨hlow, ?_⟩
      have he : e0 - 1 + 1 = e0 := by ring
      rw [he, div_lt_iff₀ hDq, hpow]
      have hnat : N < 2 ^ e0.toNat * D := by
        rw [Nat.mul_comm]
        exact Nat.lt_of_not_le hcond
      exact_mod_cast hnat
  · rw [if_neg hsgn]
    simp only [decide_eq_true_eq]
    have hmz : (((-e0).toNat : ℕ) : ℤ) = -e0 := Int.toNat_of_nonneg (by omega)
    have hpow : (2 : ℚ) ^ e0 = ((2 : ℚ) ^ (-e0).toNat)⁻¹ := by
      rw [← zpow_natCast (2 : ℚ) (-e0).toNat, hmz, zpow_neg, inv_inv]
    by_cases hcond : D ≤ N * 2 ^ (-e0).toNat
    · rw [if_pos hcond]
      refine ⟨?_, hup⟩
      rw [le_div_iff₀ hDq, hpow, inv_mul_eq_div, div_le_iff₀ (pow_pos h2 _)]
      exact_mod_cast hcond
    · rw [if_neg hcond]
      refine ⟨hlow, ?_⟩
      have he : e0 - 1 + 1 = e0 := by ring
      rw [he, div_lt_iff₀ hDq, hpow, inv_mul_eq_div, lt_div_iff₀ (pow_pos h2 _)]
      exact_mod_cast Nat.lt_of_not_le hcond

theorem roundPair_pos (N D : ℕ) (hN0 : N ≠ 0) :
    roundPair N D =
      if 2 ^ (1076 - max (exp2 N D) (-1022)).toNat ≤
          rhe (if 0 ≤ 52 - max (exp2 N D) (-1022) then
                 N * 2 ^ (52 - max (exp2 N D) (-1022)).toNat else N)
              (if 0 ≤ 52 - max (exp2 N D) (-1022) then D
               else D * 2 ^ (-(52 - max (exp2 N D) (-1022))).toNat)
      then PyFloat.inf
      else .finite true
        (rhe (if 0 ≤ 52 - max (exp2 N D) (-1022) then
                N * 2 ^ (52 - max (exp2 N D) (-1022)).toNat else N)
             (if 0 ≤ 52 - max (exp2 N D) (-1022) then D
              else D * 2 ^ (-(52 - max (exp2 N D) (-1022))).toNat))
        (max (exp2 N D) (-1022)) := by
  unfold roundPair
  rw [if_neg hN0]

theorem roundPair_finite (N D : ℕ) (hD : 0 < D) (hx : (N : ℚ) / D < 2 ^ (1023 : ℤ)) :
    ∃ n ep, roundPair N D = .finite true n ep ∧ ep ≤ 1022 ∧
      (n : ℚ) * 2 ^ (ep - 52) ≤ (N : ℚ) / D + 2 ^ (970 : ℤ) := by
  have h2 : (0 : ℚ) < 2 := by norm_num
  have h2z : (2 : ℚ) ≠ 0 := by norm_num
  by_cases hN0 : N = 0
  · refine ⟨0, 0, ?_, by norm_num, ?_⟩
    · unfold roundPair
      rw [if_pos hN0]
    · subst hN0
      simp
      positivity
  · have hNpos : 0 < N := Nat.pos_of_ne_zero hN0
    have hDq : (0 : ℚ) < (D : ℚ) := by exact_mod_cast hD
    obtain ⟨hlo, hhi⟩ := exp2_spec N D hNpos hD
    set e := exp2 N D with hedef
    have he1022 : e ≤ 1022 := by
      have hlt : (2 : ℚ) ^ e < 2 ^ (1023 : ℤ) := lt_of_le_of_lt hlo hx
      have := (zpow_lt_zpow_iff_right₀ (by norm_num : (1 : ℚ) < 2)).mp hlt
      omega
    set ep := max e (-1022) with hepdef
    have hep1022 : ep ≤ 1022 := max_le he1022 (by norm_num)
    have heep : e ≤ ep := le_max_left _ _
    set k := 52 - ep with hkdef
    set u := if 0 ≤ k then N * 2 ^ k.toNat else N with hudef
    set v := if 0 ≤ k then D else D * 2 ^ (-k).toNat with hvdef
    have hvpos : 0 < v := by
      rw [hvdef]
      split
      · exact hD
      · exact Nat.mul_pos hD (Nat.pow_pos (by norm_num))
    have hvq : (0 : ℚ) < (v : ℚ) := by exact_mod_cast hvpos
    have hratio : (u : ℚ) / v = (N : ℚ) / D * 2 ^ k := by
      by_cases hk : 0 ≤ k
      · rw [hudef, hvdef, if_pos hk, if_pos hk]
        push_cast
        rw [← zpow_natCast (2 : ℚ) k.toNat, Int.toNat_of_nonneg hk]
        ring
      · rw [hudef, hvdef, if_neg hk, if_neg hk]
        push_cast
        rw [← zpow_natCast (2 : ℚ) (-k).toNat, Int.toNat_of_nonneg (by omega), zpow_neg]
        have hkz : (2 : ℚ) ^ k ≠ 0 := zpow_ne_zero _ h2z
        field_simp
    have hx2k : (N : ℚ) / D * 2 ^ k < 2 ^ (53 : ℤ) := by
      calc (N : ℚ) / D * 2 ^ k < 2 ^ (e + 1) * 2 ^ k :=
            mul_lt_mul_of_pos_right hhi (zpow_pos h2 _)
        _ = 2 ^ (e + 1 + k) := (zpow_add₀ h2z _ _).symm
        _ ≤ 2 ^ (53 : ℤ) := zpow_le_zpow_right₀ (by norm_num) (by omega)
    have hcast53 : (2 : ℚ) ^ (53 : ℤ) = ((2 ^ 53 : ℕ) : ℚ) := by norm_num
    have hn_le : rhe u v ≤ 2 ^ 53 := by
      have h1 := rhe_le u v
      have hq : (u : ℚ) < ((2 ^ 53 : ℕ) : ℚ) * v := by
        rw [← hcast53, ← div_lt_iff₀ hvq, hratio]
        exact hx2k
      have hnat : u < 2 ^ 53 * v := by exact_mod_cast hq
      have hdiv : u / v < 2 ^ 53 := (Nat.div_lt_iff_lt_mul hvpos).mpr hnat
      omega
    have hthresh : ¬(2 ^ (1076 - ep).toNat ≤ rhe u v) := by
      have h54 : 54 ≤ (1076 - ep).toNat := by omega
      have hp : (2 : ℕ) ^ 54 ≤ 2 ^ (1076 - ep).toNat := Nat.pow_le_pow_right (by norm_num) h54
      have h53 : (2 : ℕ) ^ 53 < 2 ^ 54 := by norm_num
      omega
    refine ⟨rhe u v, ep, ?_, hep1022, ?_⟩
    · rw [roundPair_pos N D hN0, ← hedef, ← hepdef, ← hkdef, ← hudef, ← hvdef, if_neg hthresh]
    · have hval : ((rhe u v : ℕ) : ℚ) ≤ (N : ℚ) / D * 2 ^ k + 1 := by
        have h1 := rhe_le u v
        have hcd : ((u / v : ℕ) : ℚ) ≤ (u : ℚ) / v := Nat.cast_div_le
        have h1q : ((rhe u v : ℕ) : ℚ) ≤ ((u / v : ℕ) : ℚ) + 1 := by exact_mod_cast h1
        rw [hratio] at hcd
        linarith
      calc ((rhe u v : ℕ) : ℚ) * 2 ^ (ep - 52)
          ≤ ((N : ℚ) / D * 2 ^ k + 1) * 2 ^ (ep - 52) :=
            mul_le_mul_of_nonneg_right hval (zpow_pos h2 _).le
        _ = (N : ℚ) / D * (2 ^ k * 2 ^ (ep - 52)) + 2 ^ (ep - 52) := by ring
        _ = (N : ℚ) / D * 2 ^ (k + (ep - 52)) + 2 ^ (ep - 52) := by rw [← zpow_add₀ h2z]
        _ = (N : ℚ) / D + 2 ^ (ep - 52) := by
            rw [show k + (ep - 52) = 0 by omega, zpow_zero, mul_one]
        _ ≤ (N : ℚ) / D + 2 ^ (970 : ℤ) := by
            have hz : (2 : ℚ) ^ (ep - 52) ≤ 2 ^ (970 : ℤ) :=
              zpow_le_zpow_right₀ (by norm_num) (by omega)
            linarith

theorem multOf_bounds (u : Char) : 1000 ≤ multOf u ∧ multOf u ≤ 1000000000 := by
  unfold multOf
  split
  · norm_num
  · split
    · norm_num
    · norm_num

theorem roundPairS_true (N D : ℕ) (n : ℕ) (ep : ℤ) (h : roundPair N D = .finite true n ep) :
    roundPairS true N D = .finite true n ep := by
  unfold roundPairS
  rw [h]

theorem pyMulPos_finite (s : Bool) (n : ℕ) (e : ℤ) (m : ℕ) :
    ∃ N2 D2, pyMulPos (.finite s n e) m = roundPairS s N2 D2 ∧ 0 < D2 ∧
      (N2 : ℚ) / D2 = (n : ℚ) * m * 2 ^ (e - 52) := by
  by_cases h52 : 52 ≤ e
  · refine ⟨n * m * 2 ^ (e - 52).toNat, 1, ?_, one_pos, ?_⟩
    · unfold pyMulPos
      dsimp only
      rw [if_pos h52]
    · push_cast
      rw [← zpow_natCast (2 : ℚ) (e - 52).toNat, Int.toNat_of_nonneg (by omega), div_one]
  · refine ⟨n * m, 2 ^ (52 - e).toNat, ?_, Nat.pow_pos (by norm_num), ?_⟩
    · unfold pyMulPos
      dsimp only
      rw [if_neg h52]
    · push_cast
      rw [← zpow_natCast (2 : ℚ) (52 - e).toNat, Int.toNat_of_nonneg (by omega)]
      rw [show (52 : ℤ) - e = -(e - 52) by ring, zpow_neg, div_eq_mul_inv, inv_inv]

theorem compact_no_raise (ds fs : List Char) (u : Char)
    (hguard : digitsToNat (ds ++ fs) * multOf u < 2 ^ 1022) :
    ∃ z, pyTrunc (pyMulPos (pyFloatOfDigits ds fs) (multOf u)) = .ok z := by
  obtain ⟨hm1000, hm1e9⟩ := multOf_bounds u
  set N := digitsToNat (ds ++ fs) with hNdef
  set D := (10 : ℕ) ^ fs.length with hDdef
  set M := multOf u with hMdef
  have hD : 0 < D := Nat.pow_pos (by norm_num)
  have hDq : (0 : ℚ) < (D : ℚ) := by exact_mod_cast hD
  have hDge1 : (1 : ℚ) ≤ (D : ℚ) := by exact_mod_cast hD
  have hNlt : N < 2 ^ 1022 := lt_of_le_of_lt (Nat.le_mul_of_pos_right N (by omega)) hguard
  have hc1022 : ((2 ^ 1022 : ℕ) : ℚ) = 2 ^ (1022 : ℤ) := by
    push_cast
    rw [← zpow_natCast (2 : ℚ) 1022]
    norm_num
  have hx1 : (N : ℚ) / D < 2 ^ (1023 : ℤ) := by
    have hself : (N : ℚ) / D ≤ (N : ℚ) := div_le_self (by positivity) hDge1
    have hlt : (N : ℚ) < ((2 ^ 1022 : ℕ) : ℚ) := by exact_mod_cast hNlt
    have hle : (2 : ℚ) ^ (1022 : ℤ) ≤ 2 ^ (1023 : ℤ) :=
      zpow_le_zpow_right₀ (by norm_num) (by omega)
    rw [hc1022] at hlt
    linarith
  obtain ⟨n1, ep1, hrp1, hep1, hval1⟩ := roundPair_finite N D hD hx1
  obtain ⟨N2, D2, hmul, hD2, hratio⟩ := pyMulPos_finite true n1 ep1 M
  have hx2 : (N2 : ℚ) / D2 < 2 ^ (1023 : ℤ) := by
    rw [hratio, show (n1 : ℚ) * M * 2 ^ (ep1 - 52) = ((n1 : ℚ) * 2 ^ (ep1 - 52)) * M by ring]
    have hM0 : (0 : ℚ) ≤ (M : ℚ) := by positivity
    have hMle : (M : ℚ) ≤ 1000000000 := by exact_mod_cast hm1e9
    have h1 : ((n1 : ℚ) * 2 ^ (ep1 - 52)) * M ≤ ((N : ℚ) / D + 2 ^ (970 : ℤ)) * M :=
      mul_le_mul_of_nonneg_right hval1 hM0
    have h2a : (N : ℚ) / D * M ≤ (N : ℚ) * M :=
      mul_le_mul_of_nonneg_right (div_le_self (by positivity) hDge1) hM0
    have h2b : (N : ℚ) * M < 2 ^ (1022 : ℤ) := by
      rw [← hc1022]
      exact_mod_cast hguard
    have h30 : (1000000000 : ℚ) ≤ 2 ^ (30 : ℤ) := by
      rw [show ((30 : ℤ)) = ((30 : ℕ) : ℤ) from rfl, zpow_natCast]
      norm_num
    have h2c : (2 : ℚ) ^ (970 : ℤ) * M ≤ 2 ^ (970 : ℤ) * 2 ^ (30 : ℤ) :=
      mul_le_mul_of_nonneg_left (le_trans hMle h30) (zpow_pos (by norm_num) _).le
    have h2d : (2 : ℚ) ^ (970 : ℤ) * 2 ^ (30 : ℤ) = 2 ^ (1000 : ℤ) := by
      rw [← zpow_add₀ (by norm_num : (2 : ℚ) ≠ 0)]
      norm_num
    have h2e : (2 : ℚ) ^ (1000 : ℤ) ≤ 2 ^ (1022 : ℤ) :=
      zpow_le_zpow_right₀ (by norm_num) (by omega)
    have h2f : (2 : ℚ) ^ (1022 : ℤ) + 2 ^ (1022 : ℤ) = 2 ^ (1023 : ℤ) := by
      rw [← two_mul, show ((1023 : ℤ)) = 1 + 1022 by ring,
        zpow_add₀ (by norm_num : (2 : ℚ) ≠ 0), zpow_one]
    have hexpand : ((N : ℚ) / D + 2 ^ (970 : ℤ)) * M =
        (N : ℚ) / D * M + 2 ^ (970 : ℤ) * M := by ring
    linarith
  obtain ⟨n2, ep2, hrp2, hep2b, hval2⟩ := roundPair_finite N2 D2 hD2 hx2
  have hfin : pyTrunc (pyMulPos (pyFloatOfDigits ds fs) M) = pyTrunc (.finite true n2 ep2) := by
    unfold pyFloatOfDigits
    rw [← hNdef, ← hDdef, hrp1, hmul, roundPairS_true _ _ _ _ hrp2]
  rw [hfin]
  exact ⟨_, rfl⟩

/-- C3 counterexample. `coerce_int` can raise: CPython `int()` of a NaN or
infinite float raises; a compact-suffix string whose numeric value
overflows the double range becomes `inf` inside `float(...) * mult`, so the
final `int()` raises `OverflowError`; and an all-digit string longer than
CPython's 4300-digit integer-string-conversion limit (here 1 followed by
4300 zeros) makes `int(cleaned)` raise `ValueError`. -/
theorem coerce_int_raises_counterexample :
    coerce_int (.float .nan) = .error "cannot convert float NaN to integer" ∧
    coerce_int (.float .inf) = .error "cannot convert float infinity to integer" ∧
    coerce_int (.str (String.mk ('1' :: (List.replicate 400 '0' ++ ['k'])))) =
      .error "cannot convert float infinity to integer" ∧
    coerce_int (.str (String.mk ('1' :: List.replicate 4300 '0'))) =
      .error "Exceeds the limit (4300 digits) for integer string conversion" :=
  ⟨by decide, by decide, by decide,
    coerce_int_digit_overflow (String.mk ('1' :: List.replicate 4300 '0'))
      (by
        show ('1' :: List.replicate 4300 '0').all isAsciiDigit = true
        simp only [List.all_cons, Bool.and_eq_true, List.all_eq_true]
        exact ⟨by decide, fun c hc => by rw [List.eq_of_mem_replicate hc]; decide⟩)
      (by
        show ('1' :: List.replicate 4300 '0').length > 4300
        simp only [List.length_cons, List.length_replicate]; omega)⟩

/-- C3 (amended). The Numeric Normalizer returns an integer or null and does
not raise on: null, booleans, ints, finite floats, lists, dicts, compact
strings whose digits-times-multiplier value stays below `2 ^ 1022`, and
non-compact all-ASCII strings whose cleaned form has at most 4300
characters. (Non-finite floats, overflowing compact strings and over-long
digit strings raise — see the counterexample. The guarantee is restricted
to ASCII strings: on a non-ASCII digit-property character such as U+00B2
CPython's `str.isdigit()` is true yet `int()` raises, which is outside this
ASCII model; a compact match already forces its string into the ASCII
fragment, so only the non-compact case carries the explicit restriction.) -/
theorem coerce_int_totality_amended (b : Bool) (z : ℤ) (sg : Bool) (n : ℕ) (e : ℤ)
    (xs : List PyVal) (kvs : List (String × PyVal))
    (s1 : String) (ds fs : List Char) (u : Char)
    (h1 : splitCompact (pyClean s1) = some (ds, fs, u))
    (h2 : digitsToNat (ds ++ fs) * multOf u < 2 ^ 1022)
    (s2 : String) (hA2 : allAscii s2 = true)
    (h3 : splitCompact (pyClean s2) = Option.none)
    (h4 : (pyClean s2).length ≤ 4300) :
    coerce_int PyVal.none = .ok Option.none ∧
    coerce_int (.bool b) = .ok Option.none ∧
    coerce_int (.int z) = .ok (some z) ∧
    (∃ r, coerce_int (.float (.finite sg n e)) = .ok r) ∧
    coerce_int (.list xs) = .ok Option.none ∧
    coerce_int (.dict kvs) = .ok Option.none ∧
    (∃ r, coerce_int (.str s1) = .ok r) ∧
    (∃ r, coerce_int (.str s2) = .ok r) := by
  refine ⟨rfl, rfl, rfl, ⟨_, rfl⟩, rfl, rfl, ?_, ?_⟩
  · obtain ⟨zc, hzc⟩ := compact_no_raise ds fs u h2
    refine ⟨some zc, ?_⟩
    unfold coerce_int
    dsimp only
    rw [h1]
    dsimp only
    rw [hzc]
    rfl
  · unfold coerce_int
    dsimp only
    rw [h3]
    by_cases hdig : pyIsDigitStr (pyClean s2) = true
    · rw [if_pos hdig]
      unfold pyIntOfDigits
      rw [if_neg (by omega)]
      exact ⟨some (digitsToNat (pyClean s2)), rfl⟩
    · rw [if_neg hdig]
      exact ⟨Option.none, rfl⟩

theorem coerce_int_totality_amended_witness :
    (splitCompact (pyClean "12.5k") = some ("12".data, "5".data, 'k') ∧
      digitsToNat ("12".data ++ "5".data) * multOf 'k' < 2 ^ 1022 ∧
      allAscii "42" = true ∧
      splitCompact (pyClean "42") = Option.none ∧ (pyClean "42").length ≤ 4300) ∧
    (∃ r, coerce_int (.str "12.5k") = .ok r) :=
  ⟨⟨by decide, by decide, by decide, by decide, by decide⟩,
    (coerce_int_totality_amended true 0 true 0 0 [] [] "12.5k" "12".data "5".data 'k'
      (by decide) (by decide) "42" (by decide) (by decide) (by decide)).2.2.2.2.2.2.1⟩

/-- Modelled from the spec: the Numeric Normalizer's compact-suffix clause
read as exact arithmetic — "multiply by 1e3/1e6/1e9 respectively and
truncate to integer" — for comparison with the code's float arithmetic
(values are nonnegative, so truncation is the floor). -/
def normalize_compact_spec (intDigits fracDigits : List Char) (mult : ℕ) : ℤ :=
  ⌊(digitsToNat (intDigits ++ fracDigits) : ℚ) / 10 ^ fracDigits.length * mult⌋

/-- C2 counterexample. On `"0.0157m"` the code computes
`int(float("0.0157") * 1_000_000) = 15699` (double rounding makes
`float("0.0157")` slightly less than `0.0157`), while the spec's
"multiplied by 1e6 and truncated" gives 15700. And the claim's unrestricted
all-digit clause fails at 4301 digits (here 4301 nines), where CPython's
integer-string-conversion limit raises `ValueError` instead of parsing. -/
theorem coerce_int_compact_counterexample :
    coerce_int (.str "0.0157m") = .ok (some 15699) ∧
    normalize_compact_spec "0".data "0157".data 1000000 = 15700 ∧
    (15699 : ℤ) ≠ 15700 ∧
    coerce_int (.str (String.mk (List.replicate 4301 '9'))) =
      .error "Exceeds the limit (4300 digits) for integer string conversion" := by
  refine ⟨by decide, ?_, by decide,
    coerce_int_digit_overflow (String.mk (List.replicate 4301 '9'))
      (by
        show (List.replicate 4301 '9').all isAsciiDigit = true
        simp only [List.all_eq_true]
        exact fun c hc => by rw [List.eq_of_mem_replicate hc]; decide)
      (by
        show (List.replicate 4301 '9').length > 4300
        simp only [List.length_replicate]; omega)⟩
  have hd : digitsToNat ("0".data ++ "0157".data) = 157 := by decide
  have hlen : ("0157".data : List Char).length = 4 := by decide
  unfold normalize_compact_spec
  rw [hd, hlen]
  push_cast
  norm_num

/-- C2 (amended). Numeric Normalizer values: `"1,234" ↦ 1234`,
`"12.5k" ↦ 12500`, `"3m" ↦ 3000000`, `"abc" ↦ null`, `None ↦ null`,
booleans ↦ null, ints pass through, a finite float truncates toward zero to
its integer part, an all-ASCII-digit string within CPython's 4300-digit
conversion limit (beyond it `int()` raises — see the counterexample) parses
as its integer value, and any other ASCII string — one whose cleaned form
neither matches the compact `<decimal>[kmb]` pattern nor is all digits —
yields null; the compact-suffix clause is computed in IEEE-754 double
arithmetic, so `"0.0157m" ↦ 15699`, one less than exact decimal
multiplication. -/
theorem coerce_int_normalizer_values (b : Bool) (z : ℤ) (sg : Bool) (n : ℕ) (e : ℤ)
    (s : String) (hne : s.data ≠ []) (hall : s.data.all isAsciiDigit = true)
    (hlen : s.data.length ≤ 4300)
    (s3 : String) (hA3 : allAscii s3 = true)
    (h5 : splitCompact (pyClean s3) = Option.none)
    (h6 : pyIsDigitStr (pyClean s3) = false) :
    coerce_int (.str "1,234") = .ok (some 1234) ∧
    coerce_int (.str "12.5k") = .ok (some 12500) ∧
    coerce_int (.str "3m") = .ok (some 3000000) ∧
    coerce_int (.str "abc") = .ok Option.none ∧
    coerce_int PyVal.none = .ok Option.none ∧
    coerce_int (.bool b) = .ok Option.none ∧
    coerce_int (.int z) = .ok (some z) ∧
    coerce_int (.float (.finite sg n e)) =
      .ok (some (truncRat (PyFloat.val (.finite sg n e)))) ∧
    coerce_int (.str s) = .ok (some (digitsToNat s.data)) ∧
    coerce_int (.str s3) = .ok Option.none ∧
    coerce_int (.str "0.0157m") = .ok (some 15699) := by
  refine ⟨by decide, by decide, by decide, by decide, rfl, rfl, rfl, ?_,
    coerce_int_digit_string s hne hall hlen, ?_, by decide⟩
  · unfold coerce_int
    dsimp only
    rw [pyTrunc_finite_val]
    rfl
  · unfold coerce_int
    dsimp only
    rw [h5]
    rw [if_neg (by simp [h6])]

theorem coerce_int_normalizer_values_witness :
    ("42".data ≠ ([] : List Char) ∧ "42".data.all isAsciiDigit = true ∧
      "42".data.length ≤ 4300 ∧ allAscii "n/a" = true ∧
      splitCompact (pyClean "n/a") = Option.none ∧
      pyIsDigitStr (pyClean "n/a") = false) ∧
    coerce_int (.str "42") = .ok (some (digitsToNat "42".data)) ∧
    coerce_int (.str "n/a") = .ok Option.none :=
  ⟨⟨by decide, by decide, by decide, by decide, by decide, by decide⟩,
    (coerce_int_normalizer_values true 0 true 0 0 "42" (by decide) (by decide) (by decide)
      "n/a" (by decide) (by decide) (by decide)).2.2.2.2.2.2.2.2.1,
    (coerce_int_normalizer_values true 0 true 0 0 "42" (by decide) (by decide) (by decide)
      "n/a" (by decide) (by decide) (by decide)).2.2.2.2.2.2.2.2.2.1⟩
